import Mathlib

/-!
Verification of the photoprism file-index and batch-mutation core.

Shallow embedding of:
- `internal/query/files.go` (SetPhotoPrimary, RenameFile, IndexedFiles),
- `internal/api/batch.go` (the seven batch handlers),
- `internal/entity/user.go` (User.InvalidPassword and its login throttling).

Database tables are lists of rows; SQL UPDATE/DELETE statements become maps
and filters over those lists; the Go map built by IndexedFiles becomes an
association list with replace-on-insert semantics.  Handlers return the new
database together with an HTTP-level status, the notifier events they
emitted, the number of photo-count recomputations, and a count of store
statements executed (0 exactly when the handler aborted before any store
access).  Repository code that is referenced but not part of the three
sources (entity.Photo.Archive/Restore, query.PhotoSelection,
photoprism.Delete, entity.UpdatePhotoCounts, rnd.IsPPID, the bcrypt
password comparison) is modelled from the specification and marked as such
in its doc comment.
-/

namespace PhotoPrism

/-! ## Entity model -/

/-- Row of the `files` table.  Fields mirror the columns used by
`internal/query/files.go`: uid, owning photo uid, root/name location,
type, width, missing flag, primary flag, content hash, mod time and the
soft-delete timestamp (`deleted_at`). -/
structure FileRow where
  fileUID : String
  photoUID : String
  fileRoot : String
  fileName : String
  fileType : String
  fileWidth : Int
  fileMissing : Bool
  filePrimary : Bool
  fileHash : String
  modTime : Int
  deletedAt : Option Int
deriving DecidableEq

/-- Row of the `duplicates` table (the duplicate ledger): root, name and
mod time, as selected by `IndexedFiles`. -/
structure DupRow where
  fileRoot : String
  fileName : String
  modTime : Int
deriving DecidableEq

/-- Row of the `photos` table, restricted to the columns the batch
handlers touch: uid, private flag, pending-approval state and the
soft-delete timestamp. -/
structure Photo where
  photoUID : String
  photoPrivate : Bool
  pendingApproval : Bool
  deletedAt : Option Int
deriving DecidableEq

/-- Row of the `photos_albums` join table: photo uid, album uid, hidden
flag. -/
structure PhotoAlbum where
  photoUID : String
  albumUID : String
  hidden : Bool
deriving DecidableEq

/-- Row of the `albums` table (only the uid is relevant here). -/
structure Album where
  albumUID : String
deriving DecidableEq

/-- Row of the `labels` table (only the uid is relevant here). -/
structure Label where
  labelUID : String
deriving DecidableEq

/-- The relational store as seen by the batch handlers. -/
structure DB where
  photos : List Photo
  photoAlbums : List PhotoAlbum
  albums : List Album
  labels : List Label
deriving DecidableEq

/-! ## internal/query/files.go -/

/-- Go `path.Join` restricted to two already-clean segments, as used by
`IndexedFiles` on root and name: empty segments are dropped, otherwise the
segments are joined with a slash. -/
def pathJoin (root name : String) : String :=
  if root = "" then name
  else if name = "" then root
  else root ++ "/" ++ name

/-- Go map assignment `m[k] = v` on an association list: replaces the
entry for `k` if one exists, otherwise appends a new entry.  Starting from
the empty list this keeps keys unique, like a Go map. -/
def mapInsert : List (String × Int) → String → Int → List (String × Int)
  | [], k, v => [(k, v)]
  | e :: t, k, v => if e.1 = k then (k, v) :: t else e :: mapInsert t k v

/-- Go map read `m[k]` (with presence) on the association list. -/
def fmLookup (m : List (String × Int)) (k : String) : Option Int :=
  (m.find? (fun e => e.1 == k)).map (fun e => e.2)

/-- Whether a file row survives the SQL filter
`file_missing = 0 AND deleted_at IS NULL` used by `IndexedFiles` and
`FileHashes`. -/
def liveFile (f : FileRow) : Bool :=
  !f.fileMissing && f.deletedAt == none

/-- `IndexedFiles` from `internal/query/files.go`: builds the path
snapshot, first inserting every duplicate-ledger row, then every
non-missing, non-deleted file row, keyed by `path.Join(root, name)` with
the mod time as value.  The second loop overwrites the first on key
collisions, exactly as the Go map assignments do. -/
def indexedFiles (duplicates : List DupRow) (files : List FileRow) : List (String × Int) :=
  let afterDups := duplicates.foldl
    (fun r d => mapInsert r (pathJoin d.fileRoot d.fileName) d.modTime) []
  (files.filter liveFile).foldl
    (fun r f => mapInsert r (pathJoin f.fileRoot f.fileName) f.modTime) afterDups

/-- `RenameFile` from `internal/query/files.go`: rejects empty arguments
without touching the store, otherwise runs
`UPDATE files SET file_root = dest, file_name = dest, file_missing = 0,
deleted_at = NULL WHERE file_root = src AND file_name = src` (a raw
statement, hence not soft-delete scoped).  The Go error text contains an
apostrophe; it is rendered here without one. -/
def renameFile (files : List FileRow) (srcRoot srcName destRoot destName : String) :
    Except String (List FileRow) :=
  if srcRoot = "" ∨ srcName = "" ∨ destRoot = "" ∨ destName = "" then
    .error ("cannot rename " ++ srcRoot ++ "/" ++ srcName ++ " to " ++ destRoot ++ "/" ++ destName)
  else
    .ok (files.map (fun f =>
      if f.fileRoot = srcRoot ∧ f.fileName = srcName then
        { f with fileRoot := destRoot, fileName := destName,
                 fileMissing := false, deletedAt := none }
      else f))

/-- Whether a file row matches the candidate filter of `SetPhotoPrimary`:
`photo_uid = ? AND file_missing = 0 AND file_type = 'jpg'`. -/
def isCandidate (photoUID : String) (f : FileRow) : Bool :=
  f.photoUID == photoUID && !f.fileMissing && f.fileType == "jpg"

/-- `ORDER BY file_width DESC LIMIT 1` over the candidate list: a stable
descending sort followed by taking the head keeps the first-encountered
row of maximal width, which is what this left fold computes. -/
def widest (l : List FileRow) : Option FileRow :=
  l.foldl (fun acc f =>
    match acc with
    | none => some f
    | some g => if f.fileWidth > g.fileWidth then some f else acc) none

/-- Effect of the statement
`UPDATE files SET file_primary = 0 WHERE photo_uid = ? AND file_uid <> ?`
on one row. -/
def clearPrimary (photoUID uid : String) (f : FileRow) : FileRow :=
  if f.photoUID = photoUID ∧ f.fileUID ≠ uid then { f with filePrimary := false } else f

/-- Effect of the statement
`UPDATE files SET file_primary = 1 WHERE photo_uid = ? AND file_uid = ?`
on one row. -/
def setPrimary (photoUID uid : String) (f : FileRow) : FileRow :=
  if f.photoUID = photoUID ∧ f.fileUID = uid then { f with filePrimary := true } else f

/-- `SetPhotoPrimary` from `internal/query/files.go`: with an empty photo
uid it fails; with an empty file uid it picks the widest non-missing jpg
file of the photo (failing when there is none); it then clears the
primary flag on every other file of the photo and sets it on the chosen
file.  The Go error text for a missing candidate contains an apostrophe;
it is rendered here without one. -/
def setPhotoPrimary (files : List FileRow) (photoUID fileUID : String) :
    Except String (List FileRow) :=
  if photoUID = "" then .error "photo uid is missing"
  else
    let chosen : Except String String :=
      if fileUID ≠ "" then .ok fileUID
      else
        match widest (files.filter (isCandidate photoUID)) with
        | none => .error ("cannot find primary file for " ++ photoUID)
        | some f => .ok f.fileUID
    match chosen with
    | .error e => .error e
    | .ok uid =>
      if uid = "" then .error "file uid is missing"
      else
        let cleared := files.map (clearPrimary photoUID uid)
        .ok (cleared.map (setPrimary photoUID uid))

/-! ## internal/api/batch.go -/

/-- Outcome of a handler, mirroring the HTTP responses of
`internal/api/batch.go`. -/
inductive Status where
  | ok
  | badRequest
  | unauthorized
  | notFound
  | saveFailed
  | featureDisabled
deriving DecidableEq

/-- One notifier event: kind (`"archived"`, `"restored"`, `"updated"`,
`"deleted"`) together with the identifiers it carries. -/
structure Event where
  name : String
  uids : List String
deriving DecidableEq

/-- Result of running a batch handler: the store afterwards, the HTTP
status, the notifier events in emission order, the number of
`UpdatePhotoCounts` invocations, and the number of store statements
executed (0 exactly when the handler aborted before any store access). -/
structure BatchOut where
  db : DB
  status : Status
  events : List Event
  countUpdates : Nat
  storeOps : Nat
deriving DecidableEq

/-- Effect on one photo row of archiving a loaded photo
(`entity.Photo.Archive`, modelled from the spec): the soft-delete
timestamp is set for the selected photo. -/
def archivePhoto (now : Int) (sel : List String) (p : Photo) : Photo :=
  if p.photoUID ∈ sel then { p with deletedAt := some now } else p

/-- Effect on one photo row of the scoped bulk soft-delete
`Delete(&entity.Photo{}) WHERE photo_uid IN (?)`: only rows not already
soft-deleted get the timestamp. -/
def archivePhotoScoped (now : Int) (sel : List String) (p : Photo) : Photo :=
  if p.photoUID ∈ sel ∧ p.deletedAt = none then { p with deletedAt := some now } else p

/-- Effect on one join row of
`UPDATE photos_albums SET hidden = 1 WHERE photo_uid IN (?)`. -/
def hideEntry (sel : List String) (a : PhotoAlbum) : PhotoAlbum :=
  if a.photoUID ∈ sel then { a with hidden := true } else a

/-- Effect on one photo row of clearing the soft-delete timestamp
(the unscoped bulk `UPDATE photos SET deleted_at = NULL WHERE photo_uid
IN (?)`, or `entity.Photo.Restore` modelled from the spec). -/
def restorePhoto (sel : List String) (p : Photo) : Photo :=
  if p.photoUID ∈ sel then { p with deletedAt := none } else p

/-- Effect on one photo row of the scoped bulk update
`photo_private = CASE WHEN photo_private > 0 THEN 0 ELSE 1 END
WHERE photo_uid IN (?)`: a true toggle of the private flag on the
matching non-soft-deleted rows. -/
def togglePrivate (sel : List String) (p : Photo) : Photo :=
  if p.photoUID ∈ sel ∧ p.deletedAt = none then { p with photoPrivate := !p.photoPrivate } else p

/-- Modelled from the spec: `query.PhotoSelection` (not under `src/`)
resolves a selection to the matching photo rows; per the spec the store
supports unscoped queries that bypass soft-delete filtering, "needed to
restore", so soft-deleted photos are included. -/
def photoSelection (db : DB) (sel : List String) : List Photo :=
  db.photos.filter (fun p => decide (p.photoUID ∈ sel))

/-- `BatchPhotosArchive`: after the auth and empty-selection guards,
either (with YAML backup enabled) loads the selection and archives each
photo — `entity.Photo.Archive` is not under `src/` and is modelled from
the spec: soft-delete the photo and hide its album memberships — or
(default) soft-deletes the matching photos with a scoped bulk delete
(already soft-deleted rows keep their timestamp) and hides their album
memberships; then recomputes photo counts once and notifies "archived"
with the selected identifiers. -/
def batchPhotosArchive (authValid backupYaml : Bool) (now : Int) (sel : List String)
    (db : DB) : BatchOut :=
  if authValid = false then ⟨db, .unauthorized, [], 0, 0⟩
  else if sel = [] then ⟨db, .badRequest, [], 0, 0⟩
  else
    let step : DB × Nat :=
      if backupYaml then
        (⟨db.photos.map (archivePhoto now sel),
          db.photoAlbums.map (hideEntry sel),
          db.albums, db.labels⟩,
         1 + (photoSelection db sel).length)
      else
        (⟨db.photos.map (archivePhotoScoped now sel),
          db.photoAlbums.map (hideEntry sel),
          db.albums, db.labels⟩,
         2)
    ⟨step.1, .ok, [⟨"archived", sel⟩], 1, step.2 + 1⟩

/-- `BatchPhotosRestore`: after the guards, either (YAML backup) loads
the selection and restores each photo — `entity.Photo.Restore` is not
under `src/` and is modelled from the spec: clear the soft-delete
timestamp — or (default) clears `deleted_at` on the matching photos with
an unscoped bulk update; then recomputes photo counts once and notifies
"restored" with the selected identifiers. -/
def batchPhotosRestore (authValid backupYaml : Bool) (sel : List String) (db : DB) : BatchOut :=
  if authValid = false then ⟨db, .unauthorized, [], 0, 0⟩
  else if sel = [] then ⟨db, .badRequest, [], 0, 0⟩
  else
    let step : DB × Nat :=
      if backupYaml then
        (⟨db.photos.map (restorePhoto sel),
          db.photoAlbums, db.albums, db.labels⟩,
         1 + (photoSelection db sel).length)
      else
        (⟨db.photos.map (restorePhoto sel),
          db.photoAlbums, db.albums, db.labels⟩,
         1)
    ⟨step.1, .ok, [⟨"restored", sel⟩], 1, step.2 + 1⟩

/-- `BatchPhotosApprove`: after the guards, loads the selection and
approves each photo, logging and skipping per-photo failures
(`approveOk` says which photos the external save succeeds for) —
`entity.Photo.Approve` is not under `src/` and is modelled from the
spec: clear the pending-approval state; then notifies "updated" with the
successfully approved subset.  The handler performs no count
recomputation. -/
def batchPhotosApprove (authValid : Bool) (approveOk : String → Bool) (sel : List String)
    (db : DB) : BatchOut :=
  if authValid = false then ⟨db, .unauthorized, [], 0, 0⟩
  else if sel = [] then ⟨db, .badRequest, [], 0, 0⟩
  else
    let matched := photoSelection db sel
    let approved := matched.filter (fun p => approveOk p.photoUID)
    ⟨⟨db.photos.map (fun p =>
        if p.photoUID ∈ sel ∧ approveOk p.photoUID = true then
          { p with pendingApproval := false } else p),
      db.photoAlbums, db.albums, db.labels⟩,
     .ok, [⟨"updated", approved.map (fun p => p.photoUID)⟩], 0, 1 + matched.length⟩

/-- `BatchAlbumsDelete`: after the guards (the empty check inspects the
album selection), deletes the matching album rows and their join rows —
per the spec this is a hard delete — and notifies "deleted" with the
selected identifiers; no count recomputation. -/
def batchAlbumsDelete (authValid : Bool) (sel : List String) (db : DB) : BatchOut :=
  if authValid = false then ⟨db, .unauthorized, [], 0, 0⟩
  else if sel = [] then ⟨db, .badRequest, [], 0, 0⟩
  else
    ⟨⟨db.photos,
      db.photoAlbums.filter (fun a => decide (a.albumUID ∉ sel)),
      db.albums.filter (fun a => decide (a.albumUID ∉ sel)),
      db.labels⟩,
     .ok, [⟨"deleted", sel⟩], 0, 2⟩

/-- `BatchPhotosPrivate`: after the guards, runs the scoped bulk update
`photo_private = CASE WHEN photo_private > 0 THEN 0 ELSE 1 END` on the
matching (non-soft-deleted, because the statement is scoped) photos — a
true toggle — then recomputes photo counts once, reloads the selection
and notifies "updated" with it. -/
def batchPhotosPrivate (authValid : Bool) (sel : List String) (db : DB) : BatchOut :=
  if authValid = false then ⟨db, .unauthorized, [], 0, 0⟩
  else if sel = [] then ⟨db, .badRequest, [], 0, 0⟩
  else
    let newPhotos := db.photos.map (togglePrivate sel)
    let db' : DB := ⟨newPhotos, db.photoAlbums, db.albums, db.labels⟩
    ⟨db', .ok, [⟨"updated", (photoSelection db' sel).map (fun p => p.photoUID)⟩], 1, 3⟩

/-- `BatchLabelsDelete`: after the guards (the empty check inspects the
label selection), loads the matching labels, deletes each —
`entity.Label.Delete` is not under `src/`, modelled as removing the label
row — and notifies "deleted" with the selected identifiers. -/
def batchLabelsDelete (authValid : Bool) (sel : List String) (db : DB) : BatchOut :=
  if authValid = false then ⟨db, .unauthorized, [], 0, 0⟩
  else if sel = [] then ⟨db, .badRequest, [], 0, 0⟩
  else
    let matched := db.labels.filter (fun l => decide (l.labelUID ∈ sel))
    ⟨⟨db.photos, db.photoAlbums, db.albums,
      db.labels.filter (fun l => decide (l.labelUID ∉ sel))⟩,
     .ok, [⟨"deleted", sel⟩], 0, 1 + matched.length⟩

/-- `BatchPhotosDelete`: after the auth guard, the feature gate
(read-only store or disabled delete feature aborts), and the
empty-selection guard, loads the selection and permanently deletes each
photo via the external removal collaborator (`photoprism.Delete`, not
under `src/`; `removeOk` says which photos removal succeeds for),
logging and skipping failures; only when at least one deletion succeeded
does it recompute photo counts (once) and notify "deleted" with exactly
the successfully deleted identifiers. -/
def batchPhotosDelete (authValid readOnly featureDelete : Bool) (removeOk : String → Bool)
    (sel : List String) (db : DB) : BatchOut :=
  if authValid = false then ⟨db, .unauthorized, [], 0, 0⟩
  else if readOnly || !featureDelete then ⟨db, .featureDisabled, [], 0, 0⟩
  else if sel = [] then ⟨db, .badRequest, [], 0, 0⟩
  else
    let matched := photoSelection db sel
    let deleted := matched.filter (fun p => removeOk p.photoUID)
    let db' : DB := ⟨db.photos.filter (fun p =>
        !(decide (p.photoUID ∈ sel) && removeOk p.photoUID)),
      db.photoAlbums, db.albums, db.labels⟩
    if deleted.isEmpty then
      ⟨db', .ok, [], 0, 1 + matched.length⟩
    else
      ⟨db', .ok, [⟨"deleted", deleted.map (fun p => p.photoUID)⟩], 1, 2 + matched.length⟩

/-! ## internal/entity/user.go (src/unnamed/part_000) -/

/-- User row, restricted to the fields `InvalidPassword` reads or
writes: name, uid, persisted failed-login counter, last-login time. -/
structure UserM where
  userName : String
  userUID : String
  loginAttempts : Nat
  loginAt : Option Nat
deriving DecidableEq

/-- Modelled from the spec: `rnd.IsPPID` (pkg/rnd, not under `src/`)
recognizes the type-prefixed unique identifier format: a fixed-length
string starting with the type character. -/
def isPPID (s : String) (c : Char) : Bool :=
  s.length == 16 && s.front == c

/-- `User.Registered`: the user has a user name and a valid `u`-prefixed
uid. -/
def registered (m : UserM) : Bool :=
  m.userName != "" && isPPID m.userUID 'u'

/-- Observable actions of `User.InvalidPassword`, in execution order:
the synchronous throttling sleep (with its duration in seconds), the
password-store read (`FindPassword`), and the two counter updates. -/
inductive PwAction where
  | sleep (seconds : Nat)
  | findPassword
  | incLoginAttempts
  | resetLoginAttempts
deriving DecidableEq

/-- Result of a credential check: the boolean returned by
`InvalidPassword`, the user row afterwards, and the trace of observable
actions in the order the code performs them. -/
structure PwCheck where
  invalid : Bool
  user : UserM
  trace : List PwAction
deriving DecidableEq

/-- `User.InvalidPassword`: unregistered users and empty passwords are
rejected at once (no sleep, no store read, no counter change); otherwise
the code sleeps `5 * LoginAttempts` seconds, reads the password row
(`findPw`; a missing row rejects without touching the counter), and
compares — `cmpInvalid` models the bcrypt comparison
(`entity.Password.InvalidPassword`, not under `src/`): a failed
comparison increments `login_attempts`, a successful one resets it to
zero and stamps `login_at`. -/
def invalidPassword (findPw : String → Option String) (cmpInvalid : String → String → Bool)
    (nowT : Nat) (m : UserM) (password : String) : PwCheck :=
  if registered m = false then ⟨true, m, []⟩
  else if password = "" then ⟨true, m, []⟩
  else
    let slept : List PwAction := [.sleep (5 * m.loginAttempts)]
    match findPw m.userUID with
    | none => ⟨true, m, slept ++ [.findPassword]⟩
    | some hash =>
      if cmpInvalid hash password then
        ⟨true, { m with loginAttempts := m.loginAttempts + 1 },
         slept ++ [.findPassword, .incLoginAttempts]⟩
      else
        ⟨false, { m with loginAttempts := 0, loginAt := some nowT },
         slept ++ [.findPassword, .resetLoginAttempts]⟩

/-! ## Helper lemmas -/

/-- Left-biased choice on optional values, used to state which source a
snapshot entry comes from. -/
def orElseO (a b : Option Int) : Option Int :=
  match a with
  | some v => some v
  | none => b

/-- Value of the last entry carrying key `k` in an entry list (the entry
a sequence of Go map assignments leaves behind for `k`). -/
def lastVal (l : List (String × Int)) (k : String) : Option Int :=
  l.foldl (fun acc e => if e.1 = k then some e.2 else acc) none

theorem fmLookup_cons (e : String × Int) (t : List (String × Int)) (k : String) :
    fmLookup (e :: t) k = if e.1 = k then some e.2 else fmLookup t k := by
  simp only [fmLookup, List.find?]
  by_cases h : e.1 = k
  · simp [h]
  · have hb : (e.1 == k) = false := beq_eq_false_iff_ne.mpr h
    simp [hb, h]

theorem fmLookup_mapInsert (m : List (String × Int)) (k k' : String) (v : Int) :
    fmLookup (mapInsert m k v) k' = if k' = k then some v else fmLookup m k' := by
  induction m with
  | nil =>
    show fmLookup [(k, v)] k' = _
    rw [fmLookup_cons]
    by_cases h : k' = k
    · rw [if_pos h.symm, if_pos h]
    · rw [if_neg (fun hh => h hh.symm), if_neg h]
  | cons e t ih =>
    simp only [mapInsert]
    by_cases he : e.1 = k
    · rw [if_pos he, fmLookup_cons, fmLookup_cons]
      by_cases h : k' = k
      · rw [if_pos h.symm, if_pos h]
      · rw [if_neg (fun hh => h hh.symm), if_neg h,
            if_neg (fun hh => h (he.symm.trans hh).symm)]
    · rw [if_neg he, fmLookup_cons, fmLookup_cons, ih]
      by_cases hk : e.1 = k'
      · have hkk : ¬k' = k := fun hh => he (hk.trans hh)
        rw [if_pos hk, if_neg hkk, if_pos hk]
      · rw [if_neg hk]
        by_cases h : k' = k
        · rw [if_pos h, if_pos h]
        · rw [if_neg h, if_neg h, if_neg hk]

theorem lastVal_foldl_acc (l : List (String × Int)) (k : String) (acc : Option Int) :
    l.foldl (fun a e => if e.1 = k then some e.2 else a) acc = orElseO (lastVal l k) acc := by
  induction l generalizing acc with
  | nil => rfl
  | cons e t ih =>
    rw [List.foldl_cons, ih]
    have h2 : lastVal (e :: t) k =
        orElseO (lastVal t k) (if e.1 = k then some e.2 else none) := by
      show t.foldl _ _ = _
      rw [ih]
    rw [h2]
    by_cases he : e.1 = k <;> cases hl : lastVal t k <;> simp [orElseO, he]

theorem fmLookup_foldl_mapInsert (l : List (String × Int)) (init : List (String × Int))
    (k : String) :
    fmLookup (l.foldl (fun r e => mapInsert r e.1 e.2) init) k =
      orElseO (lastVal l k) (fmLookup init k) := by
  induction l generalizing init with
  | nil => rfl
  | cons e t ih =>
    rw [List.foldl_cons, ih, fmLookup_mapInsert]
    have hcons : lastVal (e :: t) k =
        orElseO (lastVal t k) (if e.1 = k then some e.2 else none) := by
      show t.foldl _ _ = _
      rw [lastVal_foldl_acc]
    rw [hcons]
    by_cases he : e.1 = k
    · rw [if_pos he, if_pos he.symm]
      cases lastVal t k <;> rfl
    · rw [if_neg he, if_neg (fun hh => he hh.symm)]
      cases lastVal t k <;> rfl

/-! ## Claims -/

/-- C4: the index-builder path snapshot maps each joined root+name key to
a mod time, taking entries first from the duplicate-ledger rows and then
from the non-missing, non-deleted file rows, the file value overwriting
the ledger value on a shared key; in particular a ledger entry
(root="A", name="b.jpg", modTime=100) together with an indexed file at
the same path with modTime=200 yields exactly one entry for "A/b.jpg"
with value 200. -/
theorem indexedFiles_file_overwrites_ledger :
    (∀ (dups : List DupRow) (files : List FileRow) (k : String),
      fmLookup (indexedFiles dups files) k =
        orElseO
          (lastVal ((files.filter liveFile).map
            (fun f => (pathJoin f.fileRoot f.fileName, f.modTime))) k)
          (lastVal (dups.map
            (fun d => (pathJoin d.fileRoot d.fileName, d.modTime))) k)) ∧
    indexedFiles [⟨"A", "b.jpg", 100⟩]
        [{ fileUID := "f1", photoUID := "p1", fileRoot := "A", fileName := "b.jpg",
           fileType := "jpg", fileWidth := 0, fileMissing := false, filePrimary := true,
           fileHash := "h", modTime := 200, deletedAt := none }] = [("A/b.jpg", 200)] := by
  constructor
  · intro dups files k
    have h1 : fmLookup (indexedFiles dups files) k =
        orElseO
          (lastVal ((files.filter liveFile).map
            (fun f => (pathJoin f.fileRoot f.fileName, f.modTime))) k)
          (fmLookup (dups.foldl
            (fun r d => mapInsert r (pathJoin d.fileRoot d.fileName) d.modTime) []) k) := by
      have := fmLookup_foldl_mapInsert
        ((files.filter liveFile).map (fun f => (pathJoin f.fileRoot f.fileName, f.modTime)))
        (dups.foldl (fun r d => mapInsert r (pathJoin d.fileRoot d.fileName) d.modTime) [])
        k
      rw [List.foldl_map] at this
      exact this
    have h2 : fmLookup (dups.foldl
        (fun r d => mapInsert r (pathJoin d.fileRoot d.fileName) d.modTime) []) k =
        orElseO (lastVal (dups.map
          (fun d => (pathJoin d.fileRoot d.fileName, d.modTime))) k) none := by
      have := fmLookup_foldl_mapInsert
        (dups.map (fun d => (pathJoin d.fileRoot d.fileName, d.modTime))) [] k
      rw [List.foldl_map] at this
      rw [this]
      rfl
    rw [h1, h2]
    cases hd : lastVal (dups.map (fun d => (pathJoin d.fileRoot d.fileName, d.modTime))) k <;>
      cases hf : lastVal ((files.filter liveFile).map
        (fun f => (pathJoin f.fileRoot f.fileName, f.modTime))) k <;>
        simp [orElseO, hd, hf]
  · rfl

/-- C5: every batch handler rejects an empty selection of its relevant
kind with a bad-request outcome before any store access (the store is
unchanged, no events are emitted, no counts are recomputed, and zero
store statements are executed), given a valid session and, for permanent
delete, an enabled delete feature on a writable store. -/
theorem emptySelection_rejected (backupYaml : Bool) (now : Int) (db : DB)
    (approveOk removeOk : String → Bool) :
    batchPhotosArchive true backupYaml now [] db = ⟨db, .badRequest, [], 0, 0⟩ ∧
    batchPhotosRestore true backupYaml [] db = ⟨db, .badRequest, [], 0, 0⟩ ∧
    batchPhotosApprove true approveOk [] db = ⟨db, .badRequest, [], 0, 0⟩ ∧
    batchAlbumsDelete true [] db = ⟨db, .badRequest, [], 0, 0⟩ ∧
    batchPhotosPrivate true [] db = ⟨db, .badRequest, [], 0, 0⟩ ∧
    batchLabelsDelete true [] db = ⟨db, .badRequest, [], 0, 0⟩ ∧
    batchPhotosDelete true false true removeOk [] db = ⟨db, .badRequest, [], 0, 0⟩ :=
  ⟨rfl, rfl, rfl, rfl, rfl, rfl, rfl⟩

/-- C9: with all four arguments non-empty, `RenameFile` moves every file
row matching the source root and name to the destination root and name
and clears both the missing flag and the soft-delete timestamp on those
rows, leaving all other rows unchanged; with any argument empty it
returns an error without touching the store. -/
theorem renameFile_spec (files : List FileRow) (sR sN dR dN : String) :
    (sR = "" ∨ sN = "" ∨ dR = "" ∨ dN = "" →
      renameFile files sR sN dR dN =
        .error ("cannot rename " ++ sR ++ "/" ++ sN ++ " to " ++ dR ++ "/" ++ dN)) ∧
    (sR ≠ "" → sN ≠ "" → dR ≠ "" → dN ≠ "" →
      ∃ files', renameFile files sR sN dR dN = .ok files' ∧
        files'.length = files.length ∧
        ∀ (i : Nat) (f : FileRow), files[i]? = some f →
          (f.fileRoot = sR ∧ f.fileName = sN →
            files'[i]? = some { f with fileRoot := dR, fileName := dN,
                                       fileMissing := false, deletedAt := none }) ∧
          (¬(f.fileRoot = sR ∧ f.fileName = sN) → files'[i]? = some f)) := by
  constructor
  · intro h
    simp only [renameFile, if_pos h]
  · intro h1 h2 h3 h4
    refine ⟨files.map (fun f =>
      if f.fileRoot = sR ∧ f.fileName = sN then
        { f with fileRoot := dR, fileName := dN, fileMissing := false, deletedAt := none }
      else f), ?_, by simp, ?_⟩
    · simp only [renameFile, if_neg (show ¬(sR = "" ∨ sN = "" ∨ dR = "" ∨ dN = "") by
        simp [h1, h2, h3, h4])]
    · intro i f hf
      constructor
      · intro hmatch
        simp [List.getElem?_map, hf, if_pos hmatch]
      · intro hmatch
        simp [List.getElem?_map, hf, if_neg hmatch]

/-- Example file row used by concrete witnesses: a missing, soft-deleted
row at A/a.jpg. -/
def exStaleFile : FileRow :=
  { fileUID := "fx1", photoUID := "px1", fileRoot := "A", fileName := "a.jpg",
    fileType := "jpg", fileWidth := 640, fileMissing := true, filePrimary := false,
    fileHash := "hx1", modTime := 10, deletedAt := some 5 }

/-- Witness for C9: at a concrete store, an empty source root is
rejected, and a full rename of A/a.jpg to B/b.jpg resurrects the
matching missing, soft-deleted row. -/
theorem renameFile_spec_witness :
    (renameFile [exStaleFile] "" "a.jpg" "B" "b.jpg" =
      .error "cannot rename /a.jpg to B/b.jpg") ∧
    (∃ files', renameFile [exStaleFile] "A" "a.jpg" "B" "b.jpg" = .ok files' ∧
      files'.length = [exStaleFile].length ∧
      ∀ (i : Nat) (f : FileRow), [exStaleFile][i]? = some f →
        (f.fileRoot = "A" ∧ f.fileName = "a.jpg" →
          files'[i]? = some { f with fileRoot := "B", fileName := "b.jpg",
                                     fileMissing := false, deletedAt := none }) ∧
        (¬(f.fileRoot = "A" ∧ f.fileName = "a.jpg") → files'[i]? = some f)) :=
  ⟨(renameFile_spec [exStaleFile] "" "a.jpg" "B" "b.jpg").1 (Or.inl rfl),
   (renameFile_spec [exStaleFile] "A" "a.jpg" "B" "b.jpg").2
     (by decide) (by decide) (by decide) (by decide)⟩

/-- C8: for a registered user whose credential check reaches the
password comparison, the check sleeps `5 * LoginAttempts` seconds first
(the trace starts with the sleep, before the store read and the
comparison), a failed comparison increments the persisted counter by one
and reports an invalid password, a successful one resets the counter to
zero, and a user with zero prior failures incurs a zero-second delay. -/
theorem invalidPassword_throttle_spec (findPw : String → Option String)
    (cmpInvalid : String → String → Bool) (nowT : Nat) (m : UserM) (password h : String)
    (hreg : registered m = true) (hpw : password ≠ "") (hfind : findPw m.userUID = some h) :
    (invalidPassword findPw cmpInvalid nowT m password).trace.head? =
      some (.sleep (5 * m.loginAttempts)) ∧
    (cmpInvalid h password = true →
      invalidPassword findPw cmpInvalid nowT m password =
        ⟨true, { m with loginAttempts := m.loginAttempts + 1 },
         [.sleep (5 * m.loginAttempts), .findPassword, .incLoginAttempts]⟩) ∧
    (cmpInvalid h password = false →
      invalidPassword findPw cmpInvalid nowT m password =
        ⟨false, { m with loginAttempts := 0, loginAt := some nowT },
         [.sleep (5 * m.loginAttempts), .findPassword, .resetLoginAttempts]⟩) ∧
    (m.loginAttempts = 0 →
      (invalidPassword findPw cmpInvalid nowT m password).trace.head? = some (.sleep 0)) := by
  cases hc : cmpInvalid h password with
  | true =>
    have e1 : invalidPassword findPw cmpInvalid nowT m password =
        ⟨true, { m with loginAttempts := m.loginAttempts + 1 },
         [.sleep (5 * m.loginAttempts), .findPassword, .incLoginAttempts]⟩ := by
      simp [invalidPassword, hreg, hpw, hfind, hc]
    exact ⟨by rw [e1]; rfl, fun _ => e1,
      fun hcf => by simp [hc] at hcf,
      fun h0 => by rw [e1, h0]; rfl⟩
  | false =>
    have e1 : invalidPassword findPw cmpInvalid nowT m password =
        ⟨false, { m with loginAttempts := 0, loginAt := some nowT },
         [.sleep (5 * m.loginAttempts), .findPassword, .resetLoginAttempts]⟩ := by
      simp [invalidPassword, hreg, hpw, hfind, hc]
    exact ⟨by rw [e1]; rfl,
      fun hct => by simp [hc] at hct,
      fun _ => e1,
      fun h0 => by rw [e1, h0]; rfl⟩

/-- Example registered user for the credential witnesses: has a user
name, a valid 16-character u-prefixed uid, and 3 persisted failed
attempts. -/
def exRegUser : UserM := ⟨"alice", "uabcdefghijklmno", 3, none⟩

/-- Example unregistered user (no user name). -/
def exNoUser : UserM := ⟨"", "uabcdefghijklmno", 2, none⟩

/-- Example password store holding the hash "secret" for every uid. -/
def exFindPw : String → Option String := fun _ => some "secret"

/-- Example comparison: the check fails whenever the stored value and
the offered password differ. -/
def exCmpInvalid : String → String → Bool := fun h p => h != p

/-- Witness for C8 at a concrete user with 3 failed attempts, a wrong
password and a right password. -/
theorem invalidPassword_throttle_spec_witness :
    (invalidPassword exFindPw exCmpInvalid 7 exRegUser "guess").trace.head? =
      some (.sleep (5 * exRegUser.loginAttempts)) ∧
    (exCmpInvalid "secret" "guess" = true →
      invalidPassword exFindPw exCmpInvalid 7 exRegUser "guess" =
        ⟨true, { exRegUser with loginAttempts := exRegUser.loginAttempts + 1 },
         [.sleep (5 * exRegUser.loginAttempts), .findPassword, .incLoginAttempts]⟩) ∧
    (exCmpInvalid "secret" "guess" = false →
      invalidPassword exFindPw exCmpInvalid 7 exRegUser "guess" =
        ⟨false, { exRegUser with loginAttempts := 0, loginAt := some 7 },
         [.sleep (5 * exRegUser.loginAttempts), .findPassword, .resetLoginAttempts]⟩) ∧
    (exRegUser.loginAttempts = 0 →
      (invalidPassword exFindPw exCmpInvalid 7 exRegUser "guess").trace.head? =
        some (.sleep 0)) :=
  invalidPassword_throttle_spec exFindPw exCmpInvalid 7 exRegUser "guess" "secret"
    (by decide) (by decide) rfl

/-- C10: the credential check returns true at once for an unregistered
user or an empty password — empty trace: no throttling sleep, no
password-store read — leaving the user row (hence the login-attempt
counter) unchanged; a check that fails because the password row is
missing also returns true with the counter unchanged. -/
theorem invalidPassword_early_return_spec (findPw : String → Option String)
    (cmpInvalid : String → String → Bool) (nowT : Nat) (m : UserM) (password : String) :
    (registered m = false →
      invalidPassword findPw cmpInvalid nowT m password = ⟨true, m, []⟩) ∧
    (password = "" →
      invalidPassword findPw cmpInvalid nowT m password = ⟨true, m, []⟩) ∧
    (registered m = true → password ≠ "" → findPw m.userUID = none →
      invalidPassword findPw cmpInvalid nowT m password =
        ⟨true, m, [.sleep (5 * m.loginAttempts), .findPassword]⟩) := by
  refine ⟨fun hreg => ?_, fun hpw => ?_, fun hreg hpw hfind => ?_⟩
  · simp [invalidPassword, hreg]
  · cases hreg : registered m <;> simp [invalidPassword, hreg, hpw]
  · simp [invalidPassword, hreg, hpw, hfind]

/-- Witness for C10 at concrete users: an unregistered user, a
registered user with an empty password, and a registered user with no
password row. -/
theorem invalidPassword_early_return_spec_witness :
    invalidPassword exFindPw exCmpInvalid 0 exNoUser "x" = ⟨true, exNoUser, []⟩ ∧
    invalidPassword exFindPw exCmpInvalid 0 exRegUser "" = ⟨true, exRegUser, []⟩ ∧
    invalidPassword (fun _ => none) exCmpInvalid 0 exRegUser "x" =
      ⟨true, exRegUser, [.sleep (5 * exRegUser.loginAttempts), .findPassword]⟩ :=
  ⟨(invalidPassword_early_return_spec exFindPw exCmpInvalid 0 exNoUser "x").1 (by decide),
   (invalidPassword_early_return_spec exFindPw exCmpInvalid 0 exRegUser "").2.1 rfl,
   (invalidPassword_early_return_spec (fun _ => none) exCmpInvalid 0 exRegUser "x").2.2
     (by decide) (by decide) rfl⟩

/-! ## Handler unfolding lemmas -/

theorem batchPhotosArchive_run (backupYaml : Bool) (now : Int) (sel : List String) (db : DB)
    (hsel : sel ≠ []) :
    (batchPhotosArchive true backupYaml now sel db).db.photos =
        (if backupYaml then db.photos.map (archivePhoto now sel)
         else db.photos.map (archivePhotoScoped now sel)) ∧
    (batchPhotosArchive true backupYaml now sel db).db.photoAlbums =
        db.photoAlbums.map (hideEntry sel) ∧
    (batchPhotosArchive true backupYaml now sel db).db.albums = db.albums ∧
    (batchPhotosArchive true backupYaml now sel db).db.labels = db.labels ∧
    (batchPhotosArchive true backupYaml now sel db).status = .ok ∧
    (batchPhotosArchive true backupYaml now sel db).countUpdates = 1 ∧
    (batchPhotosArchive true backupYaml now sel db).events = [⟨"archived", sel⟩] := by
  cases backupYaml <;> simp [batchPhotosArchive, hsel]

theorem batchPhotosRestore_run (backupYaml : Bool) (sel : List String) (db : DB)
    (hsel : sel ≠ []) :
    (batchPhotosRestore true backupYaml sel db).db.photos = db.photos.map (restorePhoto sel) ∧
    (batchPhotosRestore true backupYaml sel db).db.photoAlbums = db.photoAlbums ∧
    (batchPhotosRestore true backupYaml sel db).status = .ok ∧
    (batchPhotosRestore true backupYaml sel db).countUpdates = 1 ∧
    (batchPhotosRestore true backupYaml sel db).events = [⟨"restored", sel⟩] := by
  cases backupYaml <;> simp [batchPhotosRestore, hsel]

theorem batchPhotosPrivate_run (sel : List String) (db : DB) (hsel : sel ≠ []) :
    (batchPhotosPrivate true sel db).db =
      ⟨db.photos.map (togglePrivate sel), db.photoAlbums, db.albums, db.labels⟩ ∧
    (batchPhotosPrivate true sel db).status = .ok := by
  simp [batchPhotosPrivate, hsel]

theorem togglePrivate_togglePrivate (sel : List String) (p : Photo) :
    togglePrivate sel (togglePrivate sel p) = p := by
  cases p with
  | mk uid priv pend del =>
    by_cases h : uid ∈ sel ∧ del = none
    · simp [togglePrivate, h]
    · simp [togglePrivate, h]

/-- Claim C7: applying the batch privacy toggle twice with the same
non-empty selection restores the store exactly — every affected photo's
private flag returns to its original value, which also demonstrates that
a single application is a true inversion rather than a set-to-value —
and each application reports success. -/
theorem privateToggle_involution (sel : List String) (db : DB) (hsel : sel ≠ []) :
    (batchPhotosPrivate true sel (batchPhotosPrivate true sel db).db).db = db ∧
    (batchPhotosPrivate true sel db).status = .ok := by
  refine ⟨?_, (batchPhotosPrivate_run sel db hsel).2⟩
  rw [(batchPhotosPrivate_run sel db hsel).1,
      (batchPhotosPrivate_run sel _ hsel).1]
  cases db with
  | mk ph pa al la =>
    have hmap : (ph.map (togglePrivate sel)).map (togglePrivate sel) = ph := by
      rw [List.map_map]
      induction ph with
      | nil => rfl
      | cons p t ih =>
        simp only [List.map_cons, Function.comp_apply, togglePrivate_togglePrivate, ih]
    simp only [hmap]

/-- Example photo rows for concrete witnesses. -/
def exPhoto1 : Photo := ⟨"p1", false, false, none⟩

def exPhoto2 : Photo := ⟨"p2", true, true, some 4⟩

def exDB : DB := ⟨[exPhoto1, exPhoto2], [⟨"p1", "a1", false⟩], [⟨"a1"⟩], [⟨"l1"⟩]⟩

/-- Witness for C7 at a concrete two-photo store. -/
theorem privateToggle_involution_witness :
    (batchPhotosPrivate true ["p1"] (batchPhotosPrivate true ["p1"] exDB).db).db = exDB ∧
    (batchPhotosPrivate true ["p1"] exDB).status = .ok :=
  privateToggle_involution ["p1"] exDB (by decide)

theorem archivePhoto_facts (now : Int) (sel : List String) (q : Photo) :
    (archivePhoto now sel q).photoUID = q.photoUID ∧
    (q.photoUID ∈ sel → (archivePhoto now sel q).deletedAt ≠ none) ∧
    (q.photoUID ∉ sel → archivePhoto now sel q = q) := by
  by_cases h : q.photoUID ∈ sel <;> simp [archivePhoto, h]

theorem archivePhotoScoped_facts (now : Int) (sel : List String) (q : Photo) :
    (archivePhotoScoped now sel q).photoUID = q.photoUID ∧
    (q.photoUID ∈ sel → (archivePhotoScoped now sel q).deletedAt ≠ none) ∧
    (q.photoUID ∉ sel → archivePhotoScoped now sel q = q) := by
  by_cases h1 : q.photoUID ∈ sel
  · by_cases h2 : q.deletedAt = none
    · simp [archivePhotoScoped, h1, h2]
    · simp [archivePhotoScoped, h1, h2]
  · simp [archivePhotoScoped, h1]

theorem hideEntry_facts (sel : List String) (b : PhotoAlbum) :
    (hideEntry sel b).photoUID = b.photoUID ∧
    (b.photoUID ∈ sel → (hideEntry sel b).hidden = true) ∧
    (b.photoUID ∉ sel → hideEntry sel b = b) := by
  by_cases h : b.photoUID ∈ sel <;> simp [hideEntry, h]

theorem restorePhoto_facts (sel : List String) (q : Photo) :
    (restorePhoto sel q).photoUID = q.photoUID ∧
    (q.photoUID ∈ sel → (restorePhoto sel q).deletedAt = none) ∧
    (q.photoUID ∉ sel → restorePhoto sel q = q) := by
  by_cases h : q.photoUID ∈ sel <;> simp [restorePhoto, h]

theorem batchPhotosArchive_photos_yaml (now : Int) (sel : List String) (db : DB)
    (hsel : sel ≠ []) :
    (batchPhotosArchive true true now sel db).db.photos =
      db.photos.map (archivePhoto now sel) := by
  simp [batchPhotosArchive, hsel]

theorem batchPhotosArchive_photos_sql (now : Int) (sel : List String) (db : DB)
    (hsel : sel ≠ []) :
    (batchPhotosArchive true false now sel db).db.photos =
      db.photos.map (archivePhotoScoped now sel) := by
  simp [batchPhotosArchive, hsel]

/-- Claim C6: archiving a non-empty selection and then restoring the
same selection leaves every selected photo with no soft-delete
timestamp, and the two calls emit exactly the two notifier events
"archived" then "restored", each carrying a permutation (here: exactly
the list) of the selected identifiers. -/
theorem archive_then_restore_spec (backupYaml : Bool) (now : Int) (sel : List String)
    (db : DB) (hsel : sel ≠ []) :
    (∀ p ∈ (batchPhotosRestore true backupYaml sel
        (batchPhotosArchive true backupYaml now sel db).db).db.photos,
      p.photoUID ∈ sel → p.deletedAt = none) ∧
    ((batchPhotosArchive true backupYaml now sel db).events ++
      (batchPhotosRestore true backupYaml sel
        (batchPhotosArchive true backupYaml now sel db).db).events =
      [⟨"archived", sel⟩, ⟨"restored", sel⟩]) ∧
    (∀ e ∈ (batchPhotosArchive true backupYaml now sel db).events ++
        (batchPhotosRestore true backupYaml sel
          (batchPhotosArchive true backupYaml now sel db).db).events,
      e.uids.Perm sel) := by
  have ha := batchPhotosArchive_run backupYaml now sel db hsel
  have hr := batchPhotosRestore_run backupYaml sel
    (batchPhotosArchive true backupYaml now sel db).db hsel
  have hev : (batchPhotosArchive true backupYaml now sel db).events ++
      (batchPhotosRestore true backupYaml sel
        (batchPhotosArchive true backupYaml now sel db).db).events =
      [⟨"archived", sel⟩, ⟨"restored", sel⟩] := by
    rw [ha.2.2.2.2.2.2, hr.2.2.2.2]
    rfl
  refine ⟨?_, hev, ?_⟩
  · intro p hp hpin
    rw [hr.1] at hp
    obtain ⟨q, _, rfl⟩ := List.mem_map.mp hp
    have hf := restorePhoto_facts sel q
    exact hf.2.1 (hf.1 ▸ hpin)
  · intro e he
    rw [hev] at he
    simp only [List.mem_cons, List.not_mem_nil, or_false] at he
    rcases he with h | h <;> rw [h]

/-- Witness for C6 at a concrete two-photo store. -/
theorem archive_then_restore_spec_witness :
    (∀ p ∈ (batchPhotosRestore true false ["p1", "p2"]
        (batchPhotosArchive true false 9 ["p1", "p2"] exDB).db).db.photos,
      p.photoUID ∈ ["p1", "p2"] → p.deletedAt = none) ∧
    ((batchPhotosArchive true false 9 ["p1", "p2"] exDB).events ++
      (batchPhotosRestore true false ["p1", "p2"]
        (batchPhotosArchive true false 9 ["p1", "p2"] exDB).db).events =
      [⟨"archived", ["p1", "p2"]⟩, ⟨"restored", ["p1", "p2"]⟩]) ∧
    (∀ e ∈ (batchPhotosArchive true false 9 ["p1", "p2"] exDB).events ++
        (batchPhotosRestore true false ["p1", "p2"]
          (batchPhotosArchive true false 9 ["p1", "p2"] exDB).db).events,
      e.uids.Perm ["p1", "p2"]) :=
  archive_then_restore_spec false 9 ["p1", "p2"] exDB (by decide)

/-- Claim C3: archiving a non-empty selection soft-deletes every
matching photo (its soft-delete timestamp is set afterwards), hides
every album-membership row of the selected photos, leaves all
non-matching photos and join rows untouched, recomputes the aggregate
photo counts exactly once, and emits exactly one "archived" event with
the selected identifiers. -/
theorem batchPhotosArchive_spec (backupYaml : Bool) (now : Int) (sel : List String)
    (db : DB) (hsel : sel ≠ []) :
    (batchPhotosArchive true backupYaml now sel db).status = .ok ∧
    (∀ p ∈ (batchPhotosArchive true backupYaml now sel db).db.photos,
      p.photoUID ∈ sel → p.deletedAt ≠ none) ∧
    (∀ a ∈ (batchPhotosArchive true backupYaml now sel db).db.photoAlbums,
      a.photoUID ∈ sel → a.hidden = true) ∧
    (∀ (i : Nat) (p : Photo), db.photos[i]? = some p → p.photoUID ∉ sel →
      (batchPhotosArchive true backupYaml now sel db).db.photos[i]? = some p) ∧
    (∀ (i : Nat) (a : PhotoAlbum), db.photoAlbums[i]? = some a → a.photoUID ∉ sel →
      (batchPhotosArchive true backupYaml now sel db).db.photoAlbums[i]? = some a) ∧
    (batchPhotosArchive true backupYaml now sel db).countUpdates = 1 ∧
    (batchPhotosArchive true backupYaml now sel db).events = [⟨"archived", sel⟩] := by
  have ha := batchPhotosArchive_run backupYaml now sel db hsel
  refine ⟨ha.2.2.2.2.1, ?_, ?_, ?_, ?_, ha.2.2.2.2.2.1, ha.2.2.2.2.2.2⟩
  · intro p hp hpin
    cases backupYaml with
    | true =>
      rw [batchPhotosArchive_photos_yaml now sel db hsel] at hp
      obtain ⟨q, _, rfl⟩ := List.mem_map.mp hp
      have hf := archivePhoto_facts now sel q
      exact hf.2.1 (hf.1 ▸ hpin)
    | false =>
      rw [batchPhotosArchive_photos_sql now sel db hsel] at hp
      obtain ⟨q, _, rfl⟩ := List.mem_map.mp hp
      have hf := archivePhotoScoped_facts now sel q
      exact hf.2.1 (hf.1 ▸ hpin)
  · intro a haa hain
    rw [ha.2.1] at haa
    obtain ⟨b, _, rfl⟩ := List.mem_map.mp haa
    have hf := hideEntry_facts sel b
    exact hf.2.1 (hf.1 ▸ hain)
  · intro i p hip hpout
    cases backupYaml with
    | true =>
      rw [batchPhotosArchive_photos_yaml now sel db hsel]
      simp [List.getElem?_map, hip, (archivePhoto_facts now sel p).2.2 hpout]
    | false =>
      rw [batchPhotosArchive_photos_sql now sel db hsel]
      simp [List.getElem?_map, hip, (archivePhotoScoped_facts now sel p).2.2 hpout]
  · intro i a hia haout
    rw [ha.2.1]
    simp [List.getElem?_map, hia, (hideEntry_facts sel a).2.2 haout]

/-- Witness for C3 at a concrete store with one matching and one
non-matching photo. -/
theorem batchPhotosArchive_spec_witness :
    (batchPhotosArchive true false 9 ["p1"] exDB).status = .ok ∧
    (∀ p ∈ (batchPhotosArchive true false 9 ["p1"] exDB).db.photos,
      p.photoUID ∈ ["p1"] → p.deletedAt ≠ none) ∧
    (∀ a ∈ (batchPhotosArchive true false 9 ["p1"] exDB).db.photoAlbums,
      a.photoUID ∈ ["p1"] → a.hidden = true) ∧
    (∀ (i : Nat) (p : Photo), exDB.photos[i]? = some p → p.photoUID ∉ ["p1"] →
      (batchPhotosArchive true false 9 ["p1"] exDB).db.photos[i]? = some p) ∧
    (∀ (i : Nat) (a : PhotoAlbum), exDB.photoAlbums[i]? = some a → a.photoUID ∉ ["p1"] →
      (batchPhotosArchive true false 9 ["p1"] exDB).db.photoAlbums[i]? = some a) ∧
    (batchPhotosArchive true false 9 ["p1"] exDB).countUpdates = 1 ∧
    (batchPhotosArchive true false 9 ["p1"] exDB).events = [⟨"archived", ["p1"]⟩] :=
  batchPhotosArchive_spec false 9 ["p1"] exDB (by decide)

/-- Counterexample for C2: a non-empty selection whose only photo fails
external removal produces NO "deleted" notifier event at all (the claim
as stated promises exactly one such event for every non-empty
selection); the handler still reports success, retains the photo, and
performs no count recompute. -/
theorem batchPhotosDelete_all_fail_no_event :
    (batchPhotosDelete true false true (fun _ => false) ["p1"]
      ⟨[exPhoto1], [], [], []⟩).events = [] ∧
    (batchPhotosDelete true false true (fun _ => false) ["p1"]
      ⟨[exPhoto1], [], [], []⟩).status = .ok ∧
    (batchPhotosDelete true false true (fun _ => false) ["p1"]
      ⟨[exPhoto1], [], [], []⟩).db.photos = [exPhoto1] ∧
    (batchPhotosDelete true false true (fun _ => false) ["p1"]
      ⟨[exPhoto1], [], [], []⟩).countUpdates = 0 := by
  refine ⟨?_, ?_, ?_, ?_⟩ <;> rfl

/-- Claim C2 (amended): on a non-empty selection, each photo whose
external removal fails is retained and skipped without aborting the
remaining photos (the call still succeeds), each photo whose removal
succeeds is removed, the count recompute runs exactly once if at least
one deletion succeeded and not at all otherwise, and one "deleted"
event carrying exactly the successfully deleted identifiers is emitted
if at least one deletion succeeded, and no event otherwise. -/
theorem batchPhotosDelete_partial_failure_spec (removeOk : String → Bool)
    (sel : List String) (db : DB) (hsel : sel ≠ []) :
    (batchPhotosDelete true false true removeOk sel db).status = .ok ∧
    (∀ p ∈ db.photos, p.photoUID ∈ sel → removeOk p.photoUID = false →
      p ∈ (batchPhotosDelete true false true removeOk sel db).db.photos) ∧
    (∀ p ∈ db.photos, p.photoUID ∈ sel → removeOk p.photoUID = true →
      p ∉ (batchPhotosDelete true false true removeOk sel db).db.photos) ∧
    (∀ p ∈ db.photos, p.photoUID ∉ sel →
      p ∈ (batchPhotosDelete true false true removeOk sel db).db.photos) ∧
    (batchPhotosDelete true false true removeOk sel db).countUpdates =
      (if (db.photos.filter (fun p => decide (p.photoUID ∈ sel))).filter
          (fun p => removeOk p.photoUID) = [] then 0 else 1) ∧
    (batchPhotosDelete true false true removeOk sel db).events =
      (if (db.photos.filter (fun p => decide (p.photoUID ∈ sel))).filter
          (fun p => removeOk p.photoUID) = [] then ([] : List Event)
       else [⟨"deleted", ((db.photos.filter (fun p => decide (p.photoUID ∈ sel))).filter
          (fun p => removeOk p.photoUID)).map (fun p => p.photoUID)⟩]) := by
  have hdb : (batchPhotosDelete true false true removeOk sel db).db.photos =
      db.photos.filter (fun p => !(decide (p.photoUID ∈ sel) && removeOk p.photoUID)) := by
    simp only [batchPhotosDelete, photoSelection]
    rw [if_neg (by simp), if_neg (by simp), if_neg hsel]
    by_cases hd : ((db.photos.filter (fun p => decide (p.photoUID ∈ sel))).filter
        (fun p => removeOk p.photoUID)).isEmpty = true
    · rw [if_pos hd]
    · rw [if_neg hd]
  refine ⟨?_, ?_, ?_, ?_, ?_, ?_⟩
  · simp only [batchPhotosDelete, photoSelection]
    rw [if_neg (by simp), if_neg (by simp), if_neg hsel]
    by_cases hd : ((db.photos.filter (fun p => decide (p.photoUID ∈ sel))).filter
        (fun p => removeOk p.photoUID)).isEmpty = true
    · rw [if_pos hd]
    · rw [if_neg hd]
  · intro p hp hpin hpok
    rw [hdb]
    refine List.mem_filter.mpr ⟨hp, ?_⟩
    simp [hpok]
  · intro p hp hpin hpok hmem
    rw [hdb] at hmem
    have := (List.mem_filter.mp hmem).2
    simp [hpin, hpok] at this
  · intro p hp hpout
    rw [hdb]
    refine List.mem_filter.mpr ⟨hp, ?_⟩
    simp [hpout]
  · simp only [batchPhotosDelete, photoSelection]
    rw [if_neg (by simp), if_neg (by simp), if_neg hsel]
    by_cases hd : ((db.photos.filter (fun p => decide (p.photoUID ∈ sel))).filter
        (fun p => removeOk p.photoUID)).isEmpty = true
    · rw [if_pos hd]
      rw [List.isEmpty_iff] at hd
      rw [if_pos hd]
    · rw [if_neg hd]
      have hd2 : ¬((db.photos.filter (fun p => decide (p.photoUID ∈ sel))).filter
          (fun p => removeOk p.photoUID)) = [] := by
        rw [← List.isEmpty_iff]
        exact fun h => hd h
      rw [if_neg hd2]
  · simp only [batchPhotosDelete, photoSelection]
    rw [if_neg (by simp), if_neg (by simp), if_neg hsel]
    by_cases hd : ((db.photos.filter (fun p => decide (p.photoUID ∈ sel))).filter
        (fun p => removeOk p.photoUID)).isEmpty = true
    · rw [if_pos hd]
      rw [List.isEmpty_iff] at hd
      rw [if_pos hd]
    · rw [if_neg hd]
      have hd2 : ¬((db.photos.filter (fun p => decide (p.photoUID ∈ sel))).filter
          (fun p => removeOk p.photoUID)) = [] := by
        rw [← List.isEmpty_iff]
        exact fun h => hd h
      rw [if_neg hd2]

/-- Example photo for the C2 witness store. -/
def exPhoto3 : Photo := ⟨"p3", false, false, none⟩

/-- Store with three photos used by the C2 witness. -/
def exDB3 : DB := ⟨[exPhoto1, exPhoto2, exPhoto3], [], [], []⟩

/-- Witness for the amended C2 at a concrete store of three selected
photos where removal fails for exactly one of them. -/
theorem batchPhotosDelete_partial_failure_spec_witness :
    (batchPhotosDelete true false true (fun u => u != "p2") ["p1", "p2", "p3"]
      exDB3).status = .ok ∧
    (∀ p ∈ exDB3.photos, p.photoUID ∈ ["p1", "p2", "p3"] →
      (fun u => u != "p2") p.photoUID = false →
      p ∈ (batchPhotosDelete true false true (fun u => u != "p2")
        ["p1", "p2", "p3"] exDB3).db.photos) ∧
    (∀ p ∈ exDB3.photos, p.photoUID ∈ ["p1", "p2", "p3"] →
      (fun u => u != "p2") p.photoUID = true →
      p ∉ (batchPhotosDelete true false true (fun u => u != "p2")
        ["p1", "p2", "p3"] exDB3).db.photos) ∧
    (∀ p ∈ exDB3.photos, p.photoUID ∉ ["p1", "p2", "p3"] →
      p ∈ (batchPhotosDelete true false true (fun u => u != "p2")
        ["p1", "p2", "p3"] exDB3).db.photos) ∧
    (batchPhotosDelete true false true (fun u => u != "p2") ["p1", "p2", "p3"]
      exDB3).countUpdates =
      (if (exDB3.photos.filter (fun p => decide (p.photoUID ∈ ["p1", "p2", "p3"]))).filter
          (fun p => (fun u => u != "p2") p.photoUID) = [] then 0 else 1) ∧
    (batchPhotosDelete true false true (fun u => u != "p2") ["p1", "p2", "p3"]
      exDB3).events =
      (if (exDB3.photos.filter (fun p => decide (p.photoUID ∈ ["p1", "p2", "p3"]))).filter
          (fun p => (fun u => u != "p2") p.photoUID) = [] then ([] : List Event)
       else [⟨"deleted", ((exDB3.photos.filter
          (fun p => decide (p.photoUID ∈ ["p1", "p2", "p3"]))).filter
          (fun p => (fun u => u != "p2") p.photoUID)).map (fun p => p.photoUID)⟩]) :=
  batchPhotosDelete_partial_failure_spec (fun u => u != "p2") ["p1", "p2", "p3"]
    exDB3 (by decide)

/-! ## Lemmas for the primary-file resolver -/

theorem foldl_widest_some (t : List FileRow) (g : FileRow) :
    ∃ c, t.foldl (fun acc f =>
      match acc with
      | none => some f
      | some g => if f.fileWidth > g.fileWidth then some f else acc) (some g) = some c := by
  induction t generalizing g with
  | nil => exact ⟨g, rfl⟩
  | cons f t ih =>
    rw [List.foldl_cons]
    by_cases h : f.fileWidth > g.fileWidth
    · simpa [h] using ih f
    · simpa [h] using ih g

theorem widest_some_of_ne_nil (l : List FileRow) (h : l ≠ []) : ∃ c, widest l = some c := by
  cases l with
  | nil => exact absurd rfl h
  | cons f t => exact foldl_widest_some t f

theorem foldl_widest_spec (l : List FileRow) :
    ∀ (acc : Option FileRow) (c : FileRow),
      l.foldl (fun acc f =>
        match acc with
        | none => some f
        | some g => if f.fileWidth > g.fileWidth then some f else acc) acc = some c →
      (acc = some c ∨ c ∈ l) ∧ (∀ x ∈ l, x.fileWidth ≤ c.fileWidth) ∧
      (∀ g, acc = some g → g.fileWidth ≤ c.fileWidth) := by
  induction l with
  | nil =>
    intro acc c h
    refine ⟨Or.inl h, by simp, fun g hg => ?_⟩
    rw [hg] at h
    injection h with h2
    rw [h2]
  | cons f t ih =>
    intro acc c h
    rw [List.foldl_cons] at h
    cases acc with
    | none =>
      obtain ⟨hmem, hmax, hacc⟩ := ih (some f) c h
      refine ⟨Or.inr ?_, ?_, ?_⟩
      · rcases hmem with he | ht
        · injection he with he2
          rw [← he2]
          exact List.mem_cons_self f t
        · exact List.mem_cons_of_mem f ht
      · intro x hx
        rcases List.mem_cons.mp hx with hxf | hxt
        · rw [hxf]
          exact hacc f rfl
        · exact hmax x hxt
      · intro g hg
        exact Option.noConfusion hg
    | some g0 =>
      by_cases hw : f.fileWidth > g0.fileWidth
      · have h2 : t.foldl (fun acc f =>
            match acc with
            | none => some f
            | some g => if f.fileWidth > g.fileWidth then some f else acc) (some f) = some c := by
          simpa [hw] using h
        obtain ⟨hmem, hmax, hacc⟩ := ih (some f) c h2
        refine ⟨Or.inr ?_, ?_, ?_⟩
        · rcases hmem with he | ht
          · injection he with he2
            rw [← he2]
            exact List.mem_cons_self f t
          · exact List.mem_cons_of_mem f ht
        · intro x hx
          rcases List.mem_cons.mp hx with hxf | hxt
          · rw [hxf]
            exact hacc f rfl
          · exact hmax x hxt
        · intro g hg
          injection hg with hg2
          rw [← hg2]
          exact le_trans (le_of_lt hw) (hacc f rfl)
      · have h2 : t.foldl (fun acc f =>
            match acc with
            | none => some f
            | some g => if f.fileWidth > g.fileWidth then some f else acc) (some g0) = some c := by
          simpa [hw] using h
        obtain ⟨hmem, hmax, hacc⟩ := ih (some g0) c h2
        refine ⟨?_, ?_, ?_⟩
        · rcases hmem with he | ht
          · exact Or.inl he
          · exact Or.inr (List.mem_cons_of_mem f ht)
        · intro x hx
          rcases List.mem_cons.mp hx with hxf | hxt
          · rw [hxf]
            exact le_trans (le_of_not_lt hw) (hacc g0 rfl)
          · exact hmax x hxt
        · intro g hg
          exact hacc g hg

theorem widest_mem_and_max (l : List FileRow) (c : FileRow) (h : widest l = some c) :
    c ∈ l ∧ ∀ x ∈ l, x.fileWidth ≤ c.fileWidth := by
  obtain ⟨hmem, hmax, _⟩ := foldl_widest_spec l none c h
  rcases hmem with he | ht
  · exact Option.noConfusion he
  · exact ⟨ht, hmax⟩

theorem countP_map_comp (p : β → Bool) (f : α → β) (l : List α) :
    (l.map f).countP p = l.countP (fun a => p (f a)) := by
  induction l with
  | nil => rfl
  | cons a t ih => simp [List.countP_cons, ih]

theorem countP_congr_fn (l : List α) (p q : α → Bool) (h : ∀ a, p a = q a) :
    l.countP p = l.countP q := by
  induction l with
  | nil => rfl
  | cons a t ih => simp [List.countP_cons, ih, h a]

theorem countP_eq_countP_filter (l : List α) (p q : α → Bool) :
    l.countP (fun a => q a && p a) = (l.filter q).countP p := by
  induction l with
  | nil => rfl
  | cons x t ih =>
    rw [List.countP_cons]
    by_cases hq : q x = true
    · rw [List.filter_cons_of_pos hq, List.countP_cons, ih]
      by_cases hp : p x = true <;> simp [hp, hq]
    · rw [List.filter_cons_of_neg hq, ih]
      simp [hq]

theorem countP_beq_eq_one_of_nodup (l : List String) (a : String)
    (hnd : l.Nodup) (hmem : a ∈ l) :
    l.countP (fun s => s == a) = 1 := by
  induction l with
  | nil => cases hmem
  | cons x t ih =>
    rw [List.countP_cons]
    rcases List.mem_cons.mp hmem with rfl | hat
    · have hxt : a ∉ t := (List.nodup_cons.mp hnd).1
      have h0 : t.countP (fun s => s == a) = 0 := by
        rw [List.countP_eq_zero]
        intro b hb hba
        rw [beq_iff_eq] at hba
        exact hxt (hba ▸ hb)
      simp [h0]
    · have hxa : ¬(x == a) = true := by
        rw [beq_iff_eq]
        rintro rfl
        exact (List.nodup_cons.mp hnd).1 hat
      rw [ih (List.nodup_cons.mp hnd).2 hat]
      simp [hxa]

theorem countP_photo_file_eq_one (files : List FileRow) (uid cuid : String)
    (hnd : ((files.filter (fun f => f.photoUID == uid)).map (fun f => f.fileUID)).Nodup)
    (hmem : ∃ c ∈ files, c.photoUID = uid ∧ c.fileUID = cuid) :
    files.countP (fun f => f.photoUID == uid && f.fileUID == cuid) = 1 := by
  rw [countP_eq_countP_filter files (fun f => f.fileUID == cuid) (fun f => f.photoUID == uid)]
  have hm : (files.filter (fun f => f.photoUID == uid)).countP (fun f => f.fileUID == cuid) =
      ((files.filter (fun f => f.photoUID == uid)).map (fun f => f.fileUID)).countP
        (fun s => s == cuid) :=
    (countP_map_comp (fun s => s == cuid) (fun f : FileRow => f.fileUID)
      (files.filter (fun f => f.photoUID == uid))).symm
  rw [hm]
  apply countP_beq_eq_one_of_nodup _ _ hnd
  obtain ⟨c, hcin, hcu, hcf⟩ := hmem
  exact List.mem_map.mpr ⟨c, List.mem_filter.mpr ⟨hcin, by simp [hcu]⟩, hcf⟩

theorem isCandidate_photoUID {uid : String} {f : FileRow} (h : isCandidate uid f = true) :
    f.photoUID = uid := by
  simp only [isCandidate, Bool.and_eq_true, beq_iff_eq] at h
  exact h.1.1

theorem setClear_primary (pu u : String) (f : FileRow) :
    setPrimary pu u (clearPrimary pu u f) =
      if f.photoUID = pu then { f with filePrimary := decide (f.fileUID = u) } else f := by
  by_cases hp : f.photoUID = pu
  · by_cases hu : f.fileUID = u
    · simp [clearPrimary, setPrimary, hp, hu]
    · simp [clearPrimary, setPrimary, hp, hu]
  · simp [clearPrimary, setPrimary, hp]

theorem setPhotoPrimary_auto (files : List FileRow) (uid : String) (huid : uid ≠ "") :
    setPhotoPrimary files uid "" =
      (match widest (files.filter (isCandidate uid)) with
      | none => .error ("cannot find primary file for " ++ uid)
      | some c =>
        if c.fileUID = "" then .error "file uid is missing"
        else .ok ((files.map (clearPrimary uid c.fileUID)).map (setPrimary uid c.fileUID))) := by
  simp only [setPhotoPrimary, if_neg huid]
  rw [if_neg (show ¬("" : String) ≠ "" by simp)]
  cases widest (files.filter (isCandidate uid)) <;> rfl

/-- Claim C1: invoking `SetPhotoPrimary` without an explicit candidate
file uid, for a photo with at least one non-missing jpg file, chooses a
non-missing jpg file of the photo of maximal width, clears the primary
flag on every other file of the photo and sets it on the chosen file, so
that afterwards exactly one file of the photo carries the primary flag
(and it is the chosen one), leaving files of other photos untouched;
with no non-missing jpg candidate the call fails with an error and, the
result being an error, makes no changes.  The store-schema hypotheses
say that file uids of the photo's rows are non-empty and unique. -/
theorem setPhotoPrimary_resolves_widest (files : List FileRow) (uid : String)
    (huid : uid ≠ "")
    (hgood : ∀ f ∈ files, f.photoUID = uid → f.fileUID ≠ "")
    (hnd : ((files.filter (fun f => f.photoUID == uid)).map (fun f => f.fileUID)).Nodup) :
    (files.filter (isCandidate uid) = [] →
      setPhotoPrimary files uid "" = .error ("cannot find primary file for " ++ uid)) ∧
    (files.filter (isCandidate uid) ≠ [] →
      ∃ c files',
        c ∈ files ∧ isCandidate uid c = true ∧
        (∀ x ∈ files, isCandidate uid x = true → x.fileWidth ≤ c.fileWidth) ∧
        setPhotoPrimary files uid "" = .ok files' ∧
        files'.countP (fun f => f.photoUID == uid && f.filePrimary) = 1 ∧
        (∀ f ∈ files', f.photoUID = uid → (f.filePrimary = true ↔ f.fileUID = c.fileUID)) ∧
        (∀ (i : Nat) (f : FileRow), files[i]? = some f → f.photoUID ≠ uid →
          files'[i]? = some f)) := by
  constructor
  · intro hfil
    rw [setPhotoPrimary_auto files uid huid, hfil]
    rfl
  · intro hfil
    obtain ⟨c, hw⟩ := widest_some_of_ne_nil _ hfil
    obtain ⟨hcmem, hcmax⟩ := widest_mem_and_max _ c hw
    have hcand : isCandidate uid c = true := (List.mem_filter.mp hcmem).2
    have hcin : c ∈ files := (List.mem_filter.mp hcmem).1
    have hcpu : c.photoUID = uid := isCandidate_photoUID hcand
    have hcuid : c.fileUID ≠ "" := hgood c hcin hcpu
    refine ⟨c, (files.map (clearPrimary uid c.fileUID)).map (setPrimary uid c.fileUID),
      hcin, hcand, ?_, ?_, ?_, ?_, ?_⟩
    · intro x hx hxc
      exact hcmax x (List.mem_filter.mpr ⟨hx, hxc⟩)
    · rw [setPhotoPrimary_auto files uid huid, hw]
      dsimp only
      rw [if_neg hcuid]
    · have hcomp : ((files.map (clearPrimary uid c.fileUID)).map
          (setPrimary uid c.fileUID)).countP
            (fun f => f.photoUID == uid && f.filePrimary) =
          files.countP (fun f =>
            (setPrimary uid c.fileUID (clearPrimary uid c.fileUID f)).photoUID == uid &&
            (setPrimary uid c.fileUID (clearPrimary uid c.fileUID f)).filePrimary) := by
        rw [countP_map_comp, countP_map_comp]
      rw [hcomp]
      rw [countP_congr_fn files _ (fun f => f.photoUID == uid && f.fileUID == c.fileUID) ?_]
      · exact countP_photo_file_eq_one files uid c.fileUID hnd ⟨c, hcin, hcpu, rfl⟩
      · intro f
        rw [setClear_primary]
        by_cases hp : f.photoUID = uid
        · by_cases hu : f.fileUID = c.fileUID <;> simp [hp, hu]
        · have hb : (f.photoUID == uid) = false := beq_eq_false_iff_ne.mpr hp
          simp [hp, hb]
    · intro f hf hfp
      obtain ⟨g1f, hg1, hEq⟩ := List.mem_map.mp hf
      obtain ⟨q, hq, hEq2⟩ := List.mem_map.mp hg1
      rw [← hEq, ← hEq2] at hfp ⊢
      rw [setClear_primary] at hfp ⊢
      by_cases hp : q.photoUID = uid
      · rw [if_pos hp] at hfp ⊢
        simp [decide_eq_true_iff]
      · rw [if_neg hp] at hfp
        exact absurd hfp hp
    · intro i f hif hfne
      simp only [List.getElem?_map, hif, Option.map_some']
      rw [setClear_primary, if_neg hfne]

/-- Example files for the C1 witness: photo p1 has two non-missing jpg
files of widths 800 and 1200 (the narrow one currently primary), a
missing jpg, and a wider raw file; photo p9 has its own primary file. -/
def exF1 : FileRow := ⟨"f1", "p1", "A", "1.jpg", "jpg", 800, false, true, "h1", 1, none⟩

def exF2 : FileRow := ⟨"f2", "p1", "A", "2.jpg", "jpg", 1200, false, false, "h2", 2, none⟩

def exF3 : FileRow := ⟨"f3", "p1", "A", "3.raw", "raw", 2000, false, false, "h3", 3, none⟩

def exF4 : FileRow := ⟨"f4", "p1", "A", "4.jpg", "jpg", 4000, true, false, "h4", 4, none⟩

def exF5 : FileRow := ⟨"f5", "p9", "A", "5.jpg", "jpg", 100, false, true, "h5", 5, none⟩

/-- Witness for C1 at the concrete five-file store: the candidate list
for p1 is non-empty and the resolver picks a widest non-missing jpg. -/
theorem setPhotoPrimary_resolves_widest_witness :
    [exF1, exF2, exF3, exF4, exF5].filter (isCandidate "p1") ≠ [] ∧
    (∃ c files',
      c ∈ [exF1, exF2, exF3, exF4, exF5] ∧ isCandidate "p1" c = true ∧
      (∀ x ∈ [exF1, exF2, exF3, exF4, exF5], isCandidate "p1" x = true →
        x.fileWidth ≤ c.fileWidth) ∧
      setPhotoPrimary [exF1, exF2, exF3, exF4, exF5] "p1" "" = .ok files' ∧
      files'.countP (fun f => f.photoUID == "p1" && f.filePrimary) = 1 ∧
      (∀ f ∈ files', f.photoUID = "p1" → (f.filePrimary = true ↔ f.fileUID = c.fileUID)) ∧
      (∀ (i : Nat) (f : FileRow), [exF1, exF2, exF3, exF4, exF5][i]? = some f →
        f.photoUID ≠ "p1" → files'[i]? = some f)) :=
  ⟨by decide,
   (setPhotoPrimary_resolves_widest [exF1, exF2, exF3, exF4, exF5] "p1"
     (by decide) (by decide) (by decide)).2 (by decide)⟩

end PhotoPrism
